import Mathlib

/-!
# Verification of the PDF Studio document rendering engine

Shallow embedding of the PDF generation engine found in
`src/shared/pdf/utils.ts` and `src/shared/pdf/generator.ts`, together with
proofs about the spec's claims.

Modelling conventions:
* JavaScript runtime values are modelled by the inductive `JSValue`
  (undefined, null, booleans, numbers, strings, plain objects as
  association lists).  JS numbers are modelled by `ℚ`; binary floating
  point rounding artifacts are outside the scope of the claims, whose
  inputs are exactly representable.  `NaN` is modelled where it matters
  by `Option ℚ` (with `none` standing for NaN).
* Code that can throw is modelled with `Except String`; pure code is a
  plain function.
* External collaborators that are not part of the repository (pdf-lib
  drawing primitives, the S3 blob store, the template/field repositories,
  the QRCode library, the system clock) are supplied as explicit
  parameters of the generator environment `GenEnv`; the control flow of
  the repository's own functions is translated statement by statement.
* The service is deployed as AWS Lambda functions, whose default time
  zone is UTC; the local-time `Date` getters used by the source are
  therefore modelled as returning the UTC components.
-/

-- ============================================================================
-- Executable string primitives
-- ============================================================================

/-!
A few `String` library functions (`splitOn`, `toLower`, `startsWith`,
`all`) are implemented on byte positions and do not reduce inside the
kernel, so the embedding uses the following structurally recursive
equivalents over `List Char`.
-/

/-- Splitting worker: `fuel` bounds the recursion (any value at least
the length of the character list is enough); each step either consumes
an occurrence of the separator or moves one character into the pending
chunk `acc`. -/
def jsSplitAux (sep : List Char) : ℕ → List Char → List Char → List (List Char)
  | 0, cs, acc => [acc.reverse ++ cs]
  | _ + 1, [], acc => [acc.reverse]
  | fuel + 1, c :: cs, acc =>
    if sep.isPrefixOf (c :: cs) then
      acc.reverse :: jsSplitAux sep fuel (List.drop sep.length (c :: cs)) []
    else
      jsSplitAux sep fuel cs (c :: acc)

/-- JS `String.prototype.split(sep)` with a non-empty plain-string
separator (leftmost-first, non-overlapping); agrees with
`String.splitOn` on every input with a non-empty separator. -/
def jsSplit (s sep : String) : List String :=
  if sep = "" then [s]
  else (jsSplitAux sep.toList (s.length + 1) s.toList []).map String.mk

/-- `String.prototype.toLowerCase` for the ASCII strings the engine
compares (font family names). -/
def jsToLower (s : String) : String :=
  String.mk (s.toList.map Char.toLower)

-- ============================================================================
-- JavaScript value model
-- ============================================================================

/-- A JavaScript runtime value, as far as the engine observes it. -/
inductive JSValue where
  | undefined
  | null
  | bool (b : Bool)
  | num (q : ℚ)
  | str (s : String)
  | obj (fields : List (String × JSValue))

namespace JSValue

/-- JS truthiness: `undefined`, `null`, `false`, `0`, `""` are falsy
(`NaN` does not occur as a first-class `JSValue` in the modelled flows). -/
def truthy : JSValue → Bool
  | .undefined => false
  | .null => false
  | .bool b => b
  | .num q => q.num != 0
  | .str s => s ≠ ""
  | .obj _ => true

/-- Whether the value is `undefined`. -/
def isUndefined : JSValue → Bool
  | .undefined => true
  | _ => false

/-- Whether the value is `null`. -/
def isNull : JSValue → Bool
  | .null => true
  | _ => false

/-- Whether `typeof v === 'object'` and the value is not `null`
(a plain object in this model). -/
def isObj : JSValue → Bool
  | .obj _ => true
  | _ => false

/-- Whether the value is the empty string (JS `value === ''`). -/
def isEmptyStr : JSValue → Bool
  | .str s => s = ""
  | _ => false

/-- Non-throwing property access: objects look their key up (missing keys
give `undefined`); property access on primitives yields `undefined`. -/
def getProp : JSValue → String → JSValue
  | .obj fields, key => (fields.lookup key).getD .undefined
  | _, _ => .undefined

/-- Raw JS property access `v[key]`: throws a `TypeError` when the
receiver is `null` or `undefined`, otherwise behaves like `getProp`. -/
def getPropE : JSValue → String → Except String JSValue
  | .undefined, _ => .error "TypeError: Cannot read properties of undefined"
  | .null, _ => .error "TypeError: Cannot read properties of null"
  | v, key => .ok (v.getProp key)

/-- JS `String(value)` coercion (objects print as `[object Object]`;
number printing is only exercised on integers in the verified flows). -/
def jsToString : JSValue → String
  | .undefined => "undefined"
  | .null => "null"
  | .bool true => "true"
  | .bool false => "false"
  | .num q => if q.den = 1 then toString q.num else toString q.num ++ "/" ++ toString q.den
  | .str s => s
  | .obj _ => "[object Object]"

/-- JS `Number(value)` coercion; `none` stands for `NaN`.  String
parsing is restricted to optionally signed decimal literals, which covers
every value the verified flows feed to it. -/
def jsToNumber : JSValue → Option ℚ
  | .undefined => none
  | .null => some 0
  | .bool true => some 1
  | .bool false => some 0
  | .num q => some q
  | .str s =>
    if s = "" then some 0
    else
      let cs := s.toList
      let neg := cs.head? = some '-'
      let body := if neg then cs.tail else cs
      let sign : ℤ := if neg then -1 else 1
      let digitsVal : List Char → ℕ := fun l => l.foldl (fun n c => n * 10 + (c.toNat - 48)) 0
      match jsSplitAux ['.'] (body.length + 1) body [] with
      | [ip] =>
        if ip ≠ [] ∧ ip.all Char.isDigit then
          some (Rat.divInt (sign * (digitsVal ip : ℤ)) 1)
        else none
      | [ip, fp] =>
        if ip ≠ [] ∧ fp ≠ [] ∧ ip.all Char.isDigit ∧ fp.all Char.isDigit then
          some (Rat.divInt (sign * ((digitsVal ip : ℤ) * (10 : ℤ) ^ fp.length + (digitsVal fp : ℤ)))
            ((10 : ℤ) ^ fp.length))
        else none
      | _ => none
  | .obj _ => none

end JSValue

-- ============================================================================
-- String helpers used by the transformers
-- ============================================================================

/-- JS `String.prototype.padStart(n, c)`. -/
def jsPadStart (s : String) (n : ℕ) (c : Char) : String :=
  if s.length < n then String.mk (List.replicate (n - s.length) c) ++ s else s

/-- JS `String.prototype.replace(pat, repl)` with a plain-string pattern:
replaces the first occurrence only. -/
def replaceFirst (s pat repl : String) : String :=
  match jsSplit s pat with
  | [] => s
  | [_] => s
  | x :: xs => x ++ repl ++ String.intercalate pat xs

/-- JS regular-expression word character (`\w`, i.e. `[A-Za-z0-9_]`). -/
def wordChar (c : Char) : Bool :=
  ('a' ≤ c ∧ c ≤ 'z') ∨ ('A' ≤ c ∧ c ≤ 'Z') ∨ c.isDigit ∨ c = '_'

/-- Length of the maximal run of decimal digits at the head of the list. -/
def leadingDigits : List Char → ℕ
  | [] => 0
  | c :: rest => if c.isDigit then leadingDigits rest + 1 else 0

/-- One step of the thousands-separator regex
`/\B(?=(\d{3})+(?!\d))/g`: the separator is inserted before a character
`c` (previous character `p`) exactly when the position is a non-boundary
(`\B`: both neighbours word characters or both not) and the digit run
starting at `c` has positive length divisible by three. -/
def addThousandsAux (sep : String) : Option Char → List Char → String
  | _, [] => ""
  | prev, c :: rest =>
    let ins :=
      match prev with
      | none => false
      | some p =>
        wordChar p = wordChar c ∧
          (let run := leadingDigits (c :: rest); run % 3 = 0 ∧ run ≠ 0)
    (if ins then sep else "") ++ String.singleton c ++ addThousandsAux sep (some c) rest

/-- JS `s.replace(/\B(?=(\d{3})+(?!\d))/g, sep)`. -/
def addThousands (sep : String) (s : String) : String :=
  addThousandsAux sep none s.toList

-- ============================================================================
-- Data Transformer (src/shared/pdf/utils.ts, class DataTransformer)
-- ============================================================================

/-- `TransformerOptions` restricted to the options the verified
transformers read (`decimals`, `thousandsSeparator`, `decimalSeparator`,
`dateFormat`); the remaining options of the source interface belong to
transformers outside the claims. -/
structure TransformerOptions where
  decimals : Option ℕ := none
  thousandsSeparator : Option String := none
  decimalSeparator : Option String := none
  dateFormat : Option String := none

namespace DataTransformer

/-- JS `Number.prototype.toFixed(d)` for a finite number modelled as a
rational: the magnitude is rounded to the integer `n` minimising
`|n / 10^d - |x||` (ties towards the larger `n`) and printed with exactly
`d` digits after the point, the sign being prefixed afterwards. -/
def toFixedQ (q : ℚ) (d : ℕ) : String :=
  let sign := if q.num < 0 then "-" else ""
  -- `⌊|q| * 10^d + 1/2⌋` computed on the numerator/denominator:
  -- `(2 * |num| * 10^d + den) / (2 * den)` with integer division.
  let nn : ℕ := (2 * q.num.natAbs * 10 ^ d + q.den) / (2 * q.den)
  let ip := nn / 10 ^ d
  let fp := nn % 10 ^ d
  sign ++ toString ip ++
    (if d = 0 then "" else "." ++ jsPadStart (toString fp) d '0')

/-- `toFixed` lifted to the `Option ℚ` number model (`none` = NaN). -/
def toFixedJS : Option ℚ → ℕ → String
  | none, _ => "NaN"
  | some q, d => toFixedQ q d

/-- `DataTransformer.transformNumber` (utils.ts lines 163-185):
fixed-decimal formatting, then replacement of the decimal separator,
then thousands separators inserted into the integer part (skipped when
the separator is the falsy empty string, like the JS truthiness check). -/
def transformNumber (value : Option ℚ) (options : TransformerOptions) : String :=
  let decimals := options.decimals.getD 2
  let thousandsSeparator := options.thousandsSeparator.getD ","
  let decimalSeparator := options.decimalSeparator.getD "."
  let result := toFixedJS value decimals
  let result :=
    if decimalSeparator ≠ "." then replaceFirst result "." decimalSeparator else result
  if thousandsSeparator ≠ "" then
    let parts := jsSplit result decimalSeparator
    match parts with
    | [] => result
    | p0 :: rest =>
      if p0 ≠ "" then
        String.intercalate decimalSeparator (addThousands thousandsSeparator p0 :: rest)
      else
        String.intercalate decimalSeparator parts
  else result

end DataTransformer

-- ============================================================================
-- JS Date model (for DataTransformer.transformDate)
-- ============================================================================

/-- A JS `Date`: either invalid, or a set of calendar components.  The
service runs on AWS Lambda whose time zone is UTC, so the local-time
getters (`getFullYear`, `getMonth`, ...) used by the source return the
UTC components stored here.  `monthIndex` is 0-based, as returned by
`getMonth()`. -/
structure JSDate where
  valid : Bool
  fullYear : ℤ := 0
  monthIndex : ℤ := 0
  dayOfMonth : ℤ := 0
  hours : ℤ := 0
  minutes : ℤ := 0
  seconds : ℤ := 0

namespace JSDate

/-- The invalid date (`new Date(NaN)`). -/
def invalid : JSDate := { valid := false }

/-- `String(component)` for a getter result: `"NaN"` on an invalid date
(all numeric getters of an invalid `Date` return `NaN`). -/
def componentStr (d : JSDate) (n : ℤ) : String :=
  if d.valid then toString n else "NaN"

/-- Number of days in a month (1-based), with leap years. -/
def daysInMonth (year : ℤ) (month : ℕ) : ℕ :=
  if month = 2 then
    if year % 4 = 0 ∧ (year % 100 ≠ 0 ∨ year % 400 = 0) then 29 else 28
  else if month = 4 ∨ month = 6 ∨ month = 9 ∨ month = 11 then 30
  else 31

/-- Numeric value of a two-digit character pair, when both are digits. -/
def digits2 (a b : Char) : Option ℕ :=
  if a.isDigit ∧ b.isDigit then some ((a.toNat - 48) * 10 + (b.toNat - 48)) else none

/-- Numeric value of a four-digit character sequence. -/
def digits4 (a b c d : Char) : Option ℕ :=
  if a.isDigit ∧ b.isDigit ∧ c.isDigit ∧ d.isDigit then
    some ((a.toNat - 48) * 1000 + (b.toNat - 48) * 100 + (c.toNat - 48) * 10 + (d.toNat - 48))
  else none

/-- Build a date from parsed yyyy-mm-dd (+ optional time) components,
range-checking them the way `Date.parse` range-checks ISO date strings. -/
def ofParts (y M D h m s : ℕ) : JSDate :=
  if 1 ≤ M ∧ M ≤ 12 ∧ 1 ≤ D ∧ D ≤ daysInMonth (y : ℤ) M ∧ h < 24 ∧ m < 60 ∧ s < 60 then
    { valid := true, fullYear := y, monthIndex := (M : ℤ) - 1, dayOfMonth := D,
      hours := h, minutes := m, seconds := s }
  else invalid

/-- `new Date(string)` restricted to the ISO-8601 forms `YYYY-MM-DD` and
`YYYY-MM-DDTHH:mm:ssZ`, which are the forms the verified scenarios use
(JS treats both as UTC instants); every other string yields the invalid
date. -/
def parse (s : String) : JSDate :=
  match s.toList with
  | [y1, y2, y3, y4, '-', m1, m2, '-', d1, d2] =>
    match digits4 y1 y2 y3 y4, digits2 m1 m2, digits2 d1 d2 with
    | some y, some M, some D => ofParts y M D 0 0 0
    | _, _, _ => invalid
  | [y1, y2, y3, y4, '-', m1, m2, '-', d1, d2, 'T',
     h1, h2, ':', n1, n2, ':', s1, s2, 'Z'] =>
    match digits4 y1 y2 y3 y4, digits2 m1 m2, digits2 d1 d2,
          digits2 h1 h2, digits2 n1 n2, digits2 s1 s2 with
    | some y, some M, some D, some h, some m, some sec => ofParts y M D h m sec
    | _, _, _, _, _, _ => invalid
  | _ => invalid

/-- `Date.prototype.toISOString`: throws a `RangeError` on an invalid
date; otherwise renders the components (milliseconds are zero for every
date this model can construct). -/
def toISOStringE (d : JSDate) : Except String String :=
  if d.valid then
    .ok (jsPadStart (toString d.fullYear) 4 '0' ++ "-" ++
      jsPadStart (toString (d.monthIndex + 1)) 2 '0' ++ "-" ++
      jsPadStart (toString d.dayOfMonth) 2 '0' ++ "T" ++
      jsPadStart (toString d.hours) 2 '0' ++ ":" ++
      jsPadStart (toString d.minutes) 2 '0' ++ ":" ++
      jsPadStart (toString d.seconds) 2 '0' ++ ".000Z")
  else .error "RangeError: Invalid time value"

/-- `Date.prototype.toString`: `"Invalid Date"` on an invalid date.  The
valid branch is only reached by `transformDate` when `toISOString` threw,
i.e. never for a valid date; its human-readable rendering is therefore
not modelled beyond reusing the ISO components. -/
def jsDateToString (d : JSDate) : String :=
  match toISOStringE d with
  | .ok s => s
  | .error _ => "Invalid Date"

end JSDate

/-- `new Date(value)` for the values the verified flows construct dates
from: strings are parsed; every other value yields the invalid date
(numeric epoch construction is not exercised by the claims). -/
def newDateJS : JSValue → JSDate
  | .str s => JSDate.parse s
  | _ => JSDate.invalid

namespace DataTransformer

/-- `DataTransformer.transformDate` (utils.ts lines 190-216): `"ISO"`
formats via `toISOString` (whose `RangeError` on an invalid date is
caught, falling back to `value.toString()`); any other format string has
each of the tokens `YYYY`, `MM`, `DD`, `HH`, `mm`, `ss` replaced (first
occurrence each, in that order) by the zero-padded component strings,
which are `"NaN"` for an invalid date. -/
def transformDate (value : JSDate) (options : TransformerOptions) : String :=
  let format := options.dateFormat.getD "YYYY-MM-DD"
  if format = "ISO" then
    match JSDate.toISOStringE value with
    | .ok s => s
    | .error _ => JSDate.jsDateToString value
  else
    let year := value.componentStr value.fullYear
    let month := jsPadStart (value.componentStr (value.monthIndex + 1)) 2 '0'
    let day := jsPadStart (value.componentStr value.dayOfMonth) 2 '0'
    let hours := jsPadStart (value.componentStr value.hours) 2 '0'
    let minutes := jsPadStart (value.componentStr value.minutes) 2 '0'
    let seconds := jsPadStart (value.componentStr value.seconds) 2 '0'
    replaceFirst (replaceFirst (replaceFirst (replaceFirst (replaceFirst
      (replaceFirst format "YYYY" year) "MM" month) "DD" day)
      "HH" hours) "mm" minutes) "ss" seconds

/-- One step of the `reduce` inside `DataTransformer.getNestedValue`
(utils.ts lines 295-299): `current && current[key] !== undefined ?
current[key] : undefined`, with property access total (`getProp`). -/
def getNestedValueStep (current : JSValue) (key : String) : JSValue :=
  if current.truthy ∧ ¬(current.getProp key).isUndefined then current.getProp key
  else .undefined

/-- `DataTransformer.getNestedValue(obj, path)`: dotted-path lookup as a
fold of the guarded step over `path.split('.')`. -/
def getNestedValue (obj : JSValue) (path : String) : JSValue :=
  (jsSplit path ".").foldl getNestedValueStep obj

/-- The same `reduce`, with JS property access modelled as throwing on a
`null`/`undefined` receiver (`getPropE`): the semantics against which
"must not throw" is stated. -/
def getNestedValueStepE (current : JSValue) (key : String) : Except String JSValue :=
  if current.truthy then do
    let v ← current.getPropE key
    if ¬v.isUndefined then current.getPropE key else pure .undefined
  else pure .undefined

/-- `getNestedValue` under the throwing property-access semantics. -/
def getNestedValueE (obj : JSValue) (path : String) : Except String JSValue :=
  (jsSplit path ".").foldlM getNestedValueStepE obj

end DataTransformer

-- ============================================================================
-- Field Validator (src/shared/pdf/utils.ts, class FieldValidator)
-- ============================================================================

/-- Return value of a `customValidator` callback: `true`/`false` or a
failure message string. -/
inductive CustomRet where
  | retBool (b : Bool)
  | retStr (s : String)

/-- A `FieldValidationRule`: the source interface carries `type`,
`value`, `message`, `customValidator`; the inductive folds the payloads
into the constructor matching each `type` value.  `patternRule` carries
the compiled regular expression as its test predicate; a `pattern` rule
whose `value` is not a `RegExp`, like an unrecognised `type`, validates
nothing (`unknown`). -/
inductive FieldValidationRule where
  | required (message : Option String)
  | minLength (n : ℤ) (message : Option String)
  | maxLength (n : ℤ) (message : Option String)
  | patternRule (test : String → Bool) (message : Option String)
  | custom (validator : Option (JSValue → CustomRet)) (message : Option String)
  | unknown

/-- `ValidationResult` from `src/shared/pdf/types.ts`. -/
structure ValidationResult where
  isValid : Bool
  errors : List String
  warnings : List String

namespace FieldValidator

/-- `FieldValidator.validateRule` (utils.ts lines 336-377): at most one
error per rule; the `warning` slot of the source's return type is never
populated by any branch, so the result is just the optional error. -/
def validateRule (value : JSValue) (rule : FieldValidationRule) : Option String :=
  match rule with
  | .required message =>
    if value.isNull ∨ value.isUndefined ∨ value.isEmptyStr then
      some (message.getD "Field is required")
    else none
  | .minLength n message =>
    match value with
    | .str s => if (s.length : ℤ) < n then some (message.getD ("Minimum length is " ++ toString n)) else none
    | _ => none
  | .maxLength n message =>
    match value with
    | .str s => if (s.length : ℤ) > n then some (message.getD ("Maximum length is " ++ toString n)) else none
    | _ => none
  | .patternRule test message =>
    match value with
    | .str s => if ¬test s then some (message.getD "Invalid format") else none
    | _ => none
  | .custom validator message =>
    match validator with
    | some f =>
      match f value with
      | .retBool true => none
      | .retBool false => some (message.getD "Validation failed")
      | .retStr s => some s
    | none => none
  | .unknown => none

/-- `FieldValidator.validate` (utils.ts lines 310-331): the loop pushes
`result.error` only when it is truthy (a non-empty string), and
`isValid` is `errors.length === 0`. -/
def validate (value : JSValue) (rules : List FieldValidationRule) : ValidationResult :=
  let errors := rules.foldl (fun acc rule =>
    match validateRule value rule with
    | some e => if e ≠ "" then acc ++ [e] else acc
    | none => acc) []
  { isValid := errors.length = 0, errors := errors, warnings := [] }

end FieldValidator

-- ============================================================================
-- Font Manager (src/shared/pdf/utils.ts, class FontManager)
-- ============================================================================

/-- The pdf-lib standard fonts the manager embeds. -/
inductive StandardFont where
  | Helvetica | HelveticaBold | TimesRoman | TimesRomanBold | Courier | CourierBold
deriving DecidableEq, Repr

/-- A `PDFFont` handle: an embedded font resource.  `doc.embedFont`
creates a resource owned by the document it was called on, recorded here
as `documentId`. -/
structure PDFFont where
  font : StandardFont
  documentId : ℕ
deriving DecidableEq, Repr

namespace FontManager

/-- The alias switch of `FontManager.getFont` (utils.ts lines 400-434). -/
def mapFamily (fontFamily : String) : StandardFont :=
  match jsToLower fontFamily with
  | "helvetica" | "arial" | "sans-serif" => .Helvetica
  | "helvetica-bold" | "arial-bold" => .HelveticaBold
  | "times" | "times-roman" | "serif" => .TimesRoman
  | "times-bold" => .TimesRomanBold
  | "courier" | "monospace" => .Courier
  | "courier-bold" => .CourierBold
  | _ => .Helvetica

/-- The `private static fontCache = new Map<string, PDFFont>()`: one
map for the whole process, threaded through `getFont` as explicit
state. -/
def FontCache := List (String × PDFFont)

/-- `FontManager.getFont(doc, fontFamily)` (utils.ts lines 390-438):
the cache key is only the family string; a hit returns the cached handle
regardless of which document it was embedded in, a miss embeds the font
into `doc` and stores the handle. -/
def getFont (cache : FontCache) (doc : ℕ) (fontFamily : String) : PDFFont × FontCache :=
  let cacheKey := fontFamily
  match List.lookup cacheKey cache with
  | some font => (font, cache)
  | none =>
    let font : PDFFont := { font := mapFamily fontFamily, documentId := doc }
    (font, (cacheKey, font) :: cache)

/-- `FontManager.clearCache` (utils.ts lines 443-445).  No call site
exists anywhere in the repository: the generator never clears the cache
between documents. -/
def clearCache (_cache : FontCache) : FontCache := []

end FontManager

-- ============================================================================
-- Field Processor: wrapText (src/shared/pdf/utils.ts lines 786-813)
-- ============================================================================

namespace FieldProcessor

/-- The word loop of `FieldProcessor.wrapText`.  `w` is the metric
`testLine ↦ font.widthOfTextAtSize(testLine, fontSize)` with the field's
font and size baked in; widths are compared, never combined, so their
numeric type is irrelevant to the control flow. -/
def wrapGo (w : String → ℕ) (maxWidth : ℕ) : List String → String → List String
  | [], currentLine => if currentLine ≠ "" then [currentLine] else []
  | word :: rest, currentLine =>
    let testLine := if currentLine = "" then word else currentLine ++ " " ++ word
    if w testLine ≤ maxWidth then
      wrapGo w maxWidth rest testLine
    else if currentLine = "" then
      -- single word too long, add it anyway
      word :: wrapGo w maxWidth rest ""
    else
      currentLine :: wrapGo w maxWidth rest word

/-- `FieldProcessor.wrapText(text, maxWidth, font, fontSize)`: greedy
word wrap of `text.split(' ')`. -/
def wrapText (w : String → ℕ) (text : String) (maxWidth : ℕ) : List String :=
  wrapGo w maxWidth (jsSplit text " ") ""

end FieldProcessor

-- ============================================================================
-- Generator data model (src/shared/pdf/types.ts, generator.ts)
-- ============================================================================

/-- `PDFFieldDefinition` restricted to the members the orchestrator
reads (`id`, `name`, `type`, `page`, `validation`, `defaultValue`,
`required`); position, dimensions and style are consumed only inside the
abstracted pdf-lib drawing calls.  `type` is kept as a string, as in the
source's loosely cast dispatch. -/
structure PDFFieldDefinition where
  id : String
  name : String
  type : String
  page : ℤ := 1
  validation : Option (List FieldValidationRule) := none
  defaultValue : JSValue := .undefined
  required : Bool := false

/-- `ProcessingError` from types.ts. -/
structure ProcessingError where
  code : String
  message : String
  field : Option String := none
  page : Option ℤ := none
  severity : String := "error"
deriving DecidableEq

/-- `ProcessingWarning` from types.ts. -/
structure ProcessingWarning where
  code : String
  message : String
  field : Option String := none
deriving DecidableEq

/-- `ProcessingMetadata` from types.ts. -/
structure ProcessingMetadata where
  templateId : String
  generatedAt : String
  processingTime : ℤ
  fileSize : ℤ
  pageCount : ℤ
  fieldsProcessed : ℤ
  fieldsSkipped : ℤ
  version : String
deriving DecidableEq

/-- `PDFProcessingResult` from types.ts: bytes are opaque `List ℕ`. -/
structure PDFProcessingResult where
  success : Bool
  pdfBuffer : Option (List ℕ) := none
  pdfBase64 : Option String := none
  downloadUrl : Option String := none
  metadata : ProcessingMetadata
  errors : Option (List ProcessingError) := none
  warnings : Option (List ProcessingWarning) := none
deriving DecidableEq

/-- `PDFMetadata` (document info dictionary options) from types.ts. -/
structure PDFMetadataOptions where
  title : Option String := none
  author : Option String := none
  subject : Option String := none
  keywords : Option (List String) := none
  creator : Option String := none
  producer : Option String := none

/-- `WatermarkConfig` restricted to the members `applyWatermark`
reads. -/
structure WatermarkConfig where
  text : String
  opacity : Option ℚ := none
  rotation : Option ℚ := none
  fontSize : Option ℚ := none

/-- `PDFSecurityConfig` from types.ts (permissions collapsed to a
name/flag list; the engine never reads any of it). -/
structure PDFSecurityConfig where
  ownerPassword : Option String := none
  userPassword : Option String := none
  permissions : List (String × Bool) := []

/-- `PDFGenerationOptions` from types.ts. -/
structure PDFGenerationOptions where
  outputFormat : Option String := none
  metadata : Option PDFMetadataOptions := none
  watermark : Option WatermarkConfig := none
  security : Option PDFSecurityConfig := none
  quality : Option String := none

/-- `PDFGenerationRequest` from types.ts (`data` must be a `JSValue.obj`
to pass request validation). -/
structure PDFGenerationRequest where
  templateId : String
  data : JSValue
  options : Option PDFGenerationOptions := none

/-- Observable state of the output `PDFDocument`'s info dictionary and
watermark overlay, as mutated by `applyPDFOptions`. -/
structure PDFDocMeta where
  title : Option String := none
  author : Option String := none
  subject : Option String := none
  keywords : Option (List String) := none
  creator : Option String := none
  producer : Option String := none
  watermarkText : Option String := none
deriving DecidableEq

/-- The generator's collaborators outside the repository, supplied as an
explicit environment: repository lookups, the S3 blob store, pdf-lib's
load/save and drawing primitives (as failure oracles keyed by field id),
the QRCode encoder, base64 encoding, and the clock. -/
structure GenEnv where
  /-- `templatesRepo.findById`: `none` covers both a missing row and a
  repository exception (the source catches and returns `null`). -/
  template : Option String := some "tpl"
  /-- `fieldsRepo.findByTemplateId`, already mapped to field
  definitions (the source catches repository errors into `[]`). -/
  fields : List PDFFieldDefinition := []
  /-- `loadBasePDF`: `none` means the S3 fetch threw, which the source
  wraps into a fatal `TEMPLATE_LOAD_ERROR`. -/
  baseBytes : Option (List ℕ) := some [1]
  loadErrMsg : String := "load failed"
  /-- Whether `PDFDocument.load` succeeds on the base bytes. -/
  docLoadOk : Bool := true
  docLoadErrMsg : String := "Failed to parse PDF document"
  /-- `pdfDoc.getPageCount()`. -/
  docPageCount : ℤ := 1
  /-- Whether `pdfDoc.save()` succeeds. -/
  saveOk : Bool := true
  saveErrMsg : String := "save failed"
  /-- The serialized bytes returned by `pdfDoc.save()`. -/
  savedBytes : List ℕ := [1]
  /-- Per-field drawing oracle: `some msg` means the pdf-lib drawing
  calls for that field id throw with message `msg`. -/
  renderThrows : String → Option String := fun _ => none
  /-- `QRCode.toDataURL`: `none` means the encoder threw. -/
  qrEncode : String → Option String := fun s => some ("data:image/png;base64," ++ s)
  /-- Node `Buffer.toString('base64')`. -/
  base64 : List ℕ → String := fun _ => "base64"
  /-- `new Date().toISOString()` at result-building time. -/
  now : String := "2026-01-01T00:00:00.000Z"
  /-- `Date.now() - startTime`. -/
  elapsed : ℤ := 1

-- ============================================================================
-- Generator (src/shared/pdf/generator.ts, class PDFGenerator)
-- ============================================================================

namespace PDFGenerator

/-- `PDFGenerator.validateRequest` (generator.ts lines 161-177):
`!request.templateId` and `!request.data || typeof request.data !==
'object'` as JS truthiness/typeof checks. -/
def validateRequest (request : PDFGenerationRequest) : ValidationResult :=
  let errors := (if request.templateId = "" then ["Template ID is required"] else []) ++
    (if ¬request.data.isObj then ["Data object is required"] else [])
  { isValid := errors.length = 0, errors := errors, warnings := [] }

/-- The per-type transformation step inside `processData` (generator.ts
lines 350-366): `date`, `number` and `qrcode` fields with a truthy value
are run through `DataTransformer.transform`; a QR encoding failure
returns the coerced string unchanged (the `catch` in
`transformQRCode`). -/
def typeTransform (qr : String → Option String) (field : PDFFieldDefinition)
    (value : JSValue) : JSValue :=
  if field.type = "date" ∧ value.truthy then
    .str (DataTransformer.transformDate (newDateJS value) { dateFormat := some "MM/DD/YYYY" })
  else if field.type = "number" ∧ value.truthy then
    .str (DataTransformer.transformNumber value.jsToNumber { decimals := some 2 })
  else if field.type = "qrcode" ∧ value.truthy then
    match qr value.jsToString with
    | some dataUrl => .str dataUrl
    | none => .str value.jsToString
  else value

/-- `PDFGenerator.processData` (generator.ts lines 329-376): for each
field, resolve the value by dotted path, fall back to the default value
when declared validation rejects it (the failure is only written to the
console), apply the per-type transformation, and record the value under
the field id.  Every step of this model is total, so the source's
per-field `catch` branch is unreachable here. -/
def processData (qr : String → Option String) (data : JSValue)
    (fields : List PDFFieldDefinition) : List (String × JSValue) :=
  fields.foldl (fun acc field =>
    let value := DataTransformer.getNestedValue data field.name
    let value :=
      match field.validation with
      | some rules =>
        if (FieldValidator.validate value rules).isValid then value else field.defaultValue
      | none => value
    acc ++ [(field.id, typeTransform qr field value)]) []

/-- The field types `FieldProcessor.renderField` dispatches on
(utils.ts lines 466-499). -/
def supportedFieldTypes : List String :=
  ["text", "multiline-text", "number", "date", "checkbox", "image", "qrcode", "table", "signature"]

/-- `FieldProcessor.renderField` (utils.ts lines 456-518) at the
granularity the orchestrator observes: an unsupported type yields one
`UNSUPPORTED_FIELD_TYPE` warning; a supported type yields one
`FIELD_PROCESSING_ERROR` tagged with the field id when the drawing
throws (oracle `renderThrows`), and nothing otherwise. -/
def renderField (renderThrows : String → Option String) (field : PDFFieldDefinition) :
    List ProcessingError × List ProcessingWarning :=
  if field.type ∈ supportedFieldTypes then
    match renderThrows field.id with
    | some msg =>
      ([{ code := "FIELD_PROCESSING_ERROR", message := msg, field := some field.id }], [])
    | none => ([], [])
  else
    ([], [{ code := "UNSUPPORTED_FIELD_TYPE",
            message := "Field type '" ++ field.type ++ "' is not supported",
            field := some field.id }])

/-- `PDFGenerator.fillPDFFields` (generator.ts lines 389-418):
`pdfDoc.getPage(field.page - 1)` throws on an out-of-range index, which
the per-field `catch` converts into a `FIELD_RENDER_ERROR` tagged with
the field id and page; otherwise the field is rendered and its
errors/warnings accumulated. -/
def fillPDFFields (env : GenEnv) (fields : List PDFFieldDefinition) :
    List ProcessingError × List ProcessingWarning :=
  fields.foldl (fun acc field =>
    if 0 ≤ field.page - 1 ∧ field.page - 1 < env.docPageCount then
      let r := renderField env.renderThrows field
      (acc.1 ++ r.1, acc.2 ++ r.2)
    else
      (acc.1 ++ [{ code := "FIELD_RENDER_ERROR",
                   message := "Failed to render field " ++ field.name ++ ": page index out of bounds",
                   field := some field.id, page := some field.page }],
       acc.2)) ([], [])

/-- `if (x) doc.setX(x)`: a truthy (non-empty) string overwrites the
slot. -/
def setIfTruthy (cur : Option String) (v : Option String) : Option String :=
  match v with
  | some s => if s ≠ "" then some s else cur
  | none => cur

/-- `PDFGenerator.applyPDFOptions` (generator.ts lines 423-449): sets
the info-dictionary entries present in `options.metadata`, draws the
watermark on every page when requested (`applyWatermark` swallows its
own failures), and contains no handling of `options.security`
whatsoever — the member is read by no statement of the function. -/
def applyPDFOptions (doc : PDFDocMeta) (options : PDFGenerationOptions) : PDFDocMeta :=
  let doc :=
    match options.metadata with
    | some m =>
      { doc with
        title := setIfTruthy doc.title m.title,
        author := setIfTruthy doc.author m.author,
        subject := setIfTruthy doc.subject m.subject,
        keywords := match m.keywords with | some ks => some ks | none => doc.keywords,
        creator := setIfTruthy doc.creator m.creator,
        producer := setIfTruthy doc.producer m.producer }
    | none => doc
  match options.watermark with
  | some w => { doc with watermarkText := some w.text }
  | none => doc

/-- The metadata block of the `success=false` branch (generator.ts lines
142-151): size and count members all zero. -/
def failMetadata (request : PDFGenerationRequest) (env : GenEnv) : ProcessingMetadata :=
  { templateId := request.templateId, generatedAt := env.now,
    processingTime := env.elapsed, fileSize := 0, pageCount := 0,
    fieldsProcessed := 0, fieldsSkipped := 0, version := "1.0.0" }

/-- The `catch` branch of `generatePDF`: `success=false`, zero-valued
metadata, no document payload, the accumulated errors (field errors
gathered so far plus the fatal one) and any gathered warnings. -/
def failResult (request : PDFGenerationRequest) (env : GenEnv)
    (errors : List ProcessingError) (warnings : List ProcessingWarning) :
    PDFProcessingResult :=
  { success := false, metadata := failMetadata request env,
    errors := if errors.length > 0 then some errors else none,
    warnings := if warnings.length > 0 then some warnings else none }

/-- Truthiness of `e.field` in `errors.filter(e => e.field)`. -/
def errFieldTruthy (e : ProcessingError) : Bool :=
  match e.field with
  | some s => s ≠ ""
  | none => false

/-- `PDFGenerator.prepareResult` (generator.ts lines 480-508), as the
triple (buffer, base64, downloadUrl). -/
def prepareResult (env : GenEnv) (pdfBytes : List ℕ) (outputFormat : String) :
    Option (List ℕ) × Option String × Option String :=
  if outputFormat = "base64" then
    (none, some (env.base64 pdfBytes), none)
  else if outputFormat = "url" then
    (none, some (env.base64 pdfBytes),
     some ("data:application/pdf;base64," ++ env.base64 pdfBytes))
  else
    (some pdfBytes, none, none)

/-- The fatal conditions of one generation call: request validation
failure, missing template, base-PDF fetch failure, malformed base
document, serialization failure.  Everything else is caught per field
and accumulated. -/
def fatalB (env : GenEnv) (request : PDFGenerationRequest) : Bool :=
  ¬(validateRequest request).isValid ∨ env.template.isNone ∨ env.baseBytes.isNone ∨
    ¬env.docLoadOk ∨ ¬env.saveOk

/-- `PDFGenerator.generatePDF` (generator.ts lines 43-156), translated
branch by branch; the fatal paths funnel through `failResult` exactly as
the source's single `catch` block does. -/
def generatePDF (env : GenEnv) (request : PDFGenerationRequest) : PDFProcessingResult :=
  if ¬(validateRequest request).isValid then
    failResult request env
      [{ code := "VALIDATION_ERROR", message := "Request validation failed" }] []
  else match env.template with
  | none =>
    failResult request env
      [{ code := "TEMPLATE_NOT_FOUND", message := "Template not found: " ++ request.templateId }] []
  | some _ =>
    let fields := env.fields
    match env.baseBytes with
    | none =>
      failResult request env
        [{ code := "TEMPLATE_LOAD_ERROR",
           message := "Failed to load base PDF template: " ++ env.loadErrMsg }] []
    | some _ =>
      if ¬env.docLoadOk then
        failResult request env [{ code := "UNKNOWN_ERROR", message := env.docLoadErrMsg }] []
      else
        let _processedData := processData env.qrEncode request.data fields
        let fw := fillPDFFields env fields
        let fieldErrors := fw.1
        let fieldWarnings := fw.2
        if ¬env.saveOk then
          failResult request env
            (fieldErrors ++ [{ code := "UNKNOWN_ERROR", message := env.saveErrMsg }]) fieldWarnings
        else
          let pdfBytes := env.savedBytes
          let skipped : ℤ := ((fieldErrors.filter errFieldTruthy).length : ℤ)
          let metadata : ProcessingMetadata :=
            { templateId := request.templateId, generatedAt := env.now,
              processingTime := env.elapsed, fileSize := (pdfBytes.length : ℤ),
              pageCount := env.docPageCount,
              fieldsProcessed := (fields.length : ℤ) - skipped,
              fieldsSkipped := skipped, version := "1.0.0" }
          let rawFormat := ((request.options.bind (·.outputFormat)).getD "")
          let outputFormat := if rawFormat = "" then "buffer" else rawFormat
          let payload := prepareResult env pdfBytes outputFormat
          { success := true, metadata := metadata,
            pdfBuffer := payload.1, pdfBase64 := payload.2.1, downloadUrl := payload.2.2,
            errors := if fieldErrors.length > 0 then some fieldErrors else none,
            warnings := if fieldWarnings.length > 0 then some fieldWarnings else none }

end PDFGenerator

-- ============================================================================
-- Concrete scenarios used by counterexamples and witnesses
-- ============================================================================

/-- A well-formed request with no options. -/
def requestBase : PDFGenerationRequest := { templateId := "tpl-1", data := .obj [] }

/-- The same request with security/permission options attached. -/
def requestWithSecurity : PDFGenerationRequest :=
  { templateId := "tpl-1", data := .obj [],
    options := some { security := some { ownerPassword := some "o", userPassword := some "u" } } }

/-- A text field whose validation (minimum length 5) rejects the value
`"ab"` supplied under its name, with default value `"DFLT"`. -/
def fieldAmount : PDFFieldDefinition :=
  { id := "f1", name := "amount", type := "text",
    validation := some [.minLength 5 none], defaultValue := .str "DFLT" }

/-- Request carrying the value `"ab"` for `fieldAmount`. -/
def requestAmount : PDFGenerationRequest :=
  { templateId := "tpl-1", data := .obj [("amount", .str "ab")] }

/-- Environment in which the drawing of field `f1` throws. -/
def envRenderFail : GenEnv :=
  { fields := [fieldAmount],
    renderThrows := fun fid => if fid = "f1" then some "drawText failed" else none }

/-- Absence of a path segment: some prefix of the keys leads to a value
on which the next key is not present. -/
def segmentAbsent (obj : JSValue) (keys : List String) : Prop :=
  ∃ ks₁ k ks₂, keys = ks₁ ++ k :: ks₂ ∧
    ((ks₁.foldl JSValue.getProp obj).getProp k).isUndefined = true

-- ============================================================================
-- Helper lemmas
-- ============================================================================

/-- Folding "append one mapped element" is `map`. -/
theorem foldl_append_map {α β : Type} (g : α → β) :
    ∀ (l : List α) (acc : List β), l.foldl (fun a x => a ++ [g x]) acc = acc ++ l.map g := by
  intro l
  induction l with
  | nil => intro acc; simp
  | cons x xs ih => intro acc; simp [ih]

/-- The guarded lookup step equals plain property access: every falsy
value has no own properties in this model, and a present-but-undefined
property is indistinguishable from an absent one. -/
theorem getNestedValueStep_eq_getProp (cur : JSValue) (key : String) :
    DataTransformer.getNestedValueStep cur key = cur.getProp key := by
  unfold DataTransformer.getNestedValueStep
  cases cur with
  | undefined => simp [JSValue.truthy, JSValue.getProp]
  | null => simp [JSValue.truthy, JSValue.getProp]
  | bool b => cases b <;> simp [JSValue.truthy, JSValue.getProp, JSValue.isUndefined]
  | num q => simp [JSValue.truthy, JSValue.getProp, JSValue.isUndefined]
  | str s => simp [JSValue.truthy, JSValue.getProp, JSValue.isUndefined]
  | obj fields =>
    simp only [JSValue.truthy, true_and]
    cases h : (JSValue.obj fields).getProp key with
    | undefined => simp [h, JSValue.isUndefined]
    | null => simp [h, JSValue.isUndefined]
    | bool b => simp [h, JSValue.isUndefined]
    | num q => simp [h, JSValue.isUndefined]
    | str s => simp [h, JSValue.isUndefined]
    | obj fs => simp [h, JSValue.isUndefined]

theorem getNestedValueStepE_ok (cur : JSValue) (key : String) :
    DataTransformer.getNestedValueStepE cur key =
      Except.ok (DataTransformer.getNestedValueStep cur key) := by
  unfold DataTransformer.getNestedValueStepE DataTransformer.getNestedValueStep
  cases cur with
  | undefined => rfl
  | null => rfl
  | bool b =>
    cases b
    · rfl
    · cases h : (JSValue.getProp (JSValue.bool true) key).isUndefined <;>
        simp [JSValue.truthy, JSValue.getPropE, h, bind, Except.bind, pure, Except.pure]
  | num q =>
    by_cases hq : q.num = 0
    · simp [JSValue.truthy, hq, pure, Except.pure]
    · cases h : (JSValue.getProp (JSValue.num q) key).isUndefined <;>
        simp [JSValue.truthy, hq, JSValue.getPropE, h, bind, Except.bind, pure, Except.pure]
  | str s =>
    by_cases hs : s = ""
    · simp [JSValue.truthy, hs, pure, Except.pure]
    · cases h : (JSValue.getProp (JSValue.str s) key).isUndefined <;>
        simp [JSValue.truthy, hs, JSValue.getPropE, h, bind, Except.bind, pure, Except.pure]
  | obj fields =>
    cases h : (JSValue.getProp (JSValue.obj fields) key).isUndefined <;>
      simp [JSValue.truthy, JSValue.getPropE, h, bind, Except.bind, pure, Except.pure]

/-- Lifting `getNestedValueStepE_ok` through the monadic fold. -/
theorem foldlM_getNestedValueStepE_ok :
    ∀ (keys : List String) (init : JSValue),
      List.foldlM DataTransformer.getNestedValueStepE init keys =
        Except.ok (List.foldl DataTransformer.getNestedValueStep init keys) := by
  intro keys
  induction keys with
  | nil => intro init; rfl
  | cons k ks ih =>
    intro init
    simp only [List.foldlM, List.foldl, getNestedValueStepE_ok, bind, Except.bind]
    exact ih _

/-- Property access keeps `undefined` absorbing through the fold. -/
theorem foldl_getProp_undefined (keys : List String) :
    keys.foldl JSValue.getProp JSValue.undefined = JSValue.undefined := by
  induction keys with
  | nil => rfl
  | cons k ks ih => simpa [JSValue.getProp] using ih

/-- The guarded fold computes plain iterated property access. -/
theorem foldl_step_eq_foldl_getProp (keys : List String) (obj : JSValue) :
    keys.foldl DataTransformer.getNestedValueStep obj = keys.foldl JSValue.getProp obj := by
  induction keys generalizing obj with
  | nil => rfl
  | cons k ks ih => simp only [List.foldl, getNestedValueStep_eq_getProp]; exact ih _

/-- C6: for every object (including null/undefined and objects whose
intermediate values are primitives) and every dotted path,
`getNestedValue` terminates without throwing — under the semantics where
raw property access throws on null/undefined receivers, the reduce
returns `ok` — and it returns `undefined` whenever any path segment is
absent along the way. -/
theorem c6_getNestedValue_safe (obj : JSValue) (path : String) :
    DataTransformer.getNestedValueE obj path =
      Except.ok (DataTransformer.getNestedValue obj path) ∧
    (segmentAbsent obj (jsSplit path ".") →
      DataTransformer.getNestedValue obj path = JSValue.undefined) := by
  constructor
  · unfold DataTransformer.getNestedValueE DataTransformer.getNestedValue
    exact foldlM_getNestedValueStepE_ok _ _
  · rintro ⟨ks₁, k, ks₂, hkeys, habs⟩
    unfold DataTransformer.getNestedValue
    rw [hkeys, foldl_step_eq_foldl_getProp, List.foldl_append]
    have hk : (ks₁.foldl JSValue.getProp obj).getProp k = JSValue.undefined := by
      cases h : (ks₁.foldl JSValue.getProp obj).getProp k with
      | undefined => rfl
      | null => rw [h] at habs; simp [JSValue.isUndefined] at habs
      | bool b => rw [h] at habs; simp [JSValue.isUndefined] at habs
      | num q => rw [h] at habs; simp [JSValue.isUndefined] at habs
      | str s => rw [h] at habs; simp [JSValue.isUndefined] at habs
      | obj fs => rw [h] at habs; simp [JSValue.isUndefined] at habs
    simp only [List.foldl, hk]
    exact foldl_getProp_undefined ks₂

/-- C6 witness: on the object `a ↦ (b ↦ 1)` and the path `a.x.c` the
segment `x` is absent, and the reduce returns `ok undefined`. -/
theorem c6_getNestedValue_safe_witness :
    DataTransformer.getNestedValueE
      (JSValue.obj [("a", JSValue.obj [("b", JSValue.num 1)])]) "a.x.c" =
      Except.ok JSValue.undefined := by
  have h := c6_getNestedValue_safe
    (JSValue.obj [("a", JSValue.obj [("b", JSValue.num 1)])]) "a.x.c"
  have habs : segmentAbsent
      (JSValue.obj [("a", JSValue.obj [("b", JSValue.num 1)])]) (jsSplit "a.x.c" ".") :=
    ⟨["a"], "x", ["c"], by decide, rfl⟩
  rw [h.1, h.2 habs]

/-- C1: the claim requires the font cache to be owned per generated
document, never handing one document's embedded font to another.  The
source's cache is a process-wide `static Map` keyed only by the family
string and `clearCache` is called nowhere, so the second of two
generation calls receives the `PDFFont` embedded in the first call's
document: starting from the empty module-level cache, `getFont` for
document 1 embeds Helvetica there, and the subsequent `getFont` for
document 2 returns that same handle, still owned by document 1. -/
theorem c1_fontCache_shared_across_documents :
    (FontManager.getFont (FontManager.getFont [] 1 "Helvetica").2 2 "Helvetica").1 =
      { font := StandardFont.Helvetica, documentId := 1 } ∧
    (FontManager.getFont (FontManager.getFont [] 1 "Helvetica").2 2 "Helvetica").1.documentId ≠ 2 := by
  decide

/-- C8: the number transform with decimals 2 and thousands separator ","
maps 1234.5 (= 2469/2) to "1,234.50"; the defaults are decimals = 2,
thousands separator "," and decimal separator "."; and the separators
are configurable, e.g. European-style options render the same value as
"1.234,5". -/
theorem c8_transformNumber_scenario :
    DataTransformer.transformNumber (some (Rat.divInt 2469 2))
      { decimals := some 2, thousandsSeparator := some "," } = "1,234.50" ∧
    (∀ v : Option ℚ, DataTransformer.transformNumber v {} =
      DataTransformer.transformNumber v
        { decimals := some 2, thousandsSeparator := some ",", decimalSeparator := some "." }) ∧
    DataTransformer.transformNumber (some (Rat.divInt 2469 2))
      { decimals := some 1, thousandsSeparator := some ".", decimalSeparator := some "," } =
      "1.234,5" :=
  ⟨by decide, fun v => rfl, by decide⟩

/-- C9 counterexample: the claim says an invalid date falls back to a
raw string representation.  With the format "YYYY-MM-DD" (the
transformer's default), an invalid date is instead rendered by token
substitution over the NaN-valued getters, producing "NaN-NaN-NaN", which
is not the raw string representation "Invalid Date"; the `toString`
fallback is reachable only through the `"ISO"` branch, because only
`toISOString` throws. -/
theorem c9_invalid_date_counterexample :
    DataTransformer.transformDate (newDateJS (JSValue.str "not a date"))
      { dateFormat := some "YYYY-MM-DD" } = "NaN-NaN-NaN" ∧
    JSDate.jsDateToString (newDateJS (JSValue.str "not a date")) = "Invalid Date" ∧
    ("NaN-NaN-NaN" : String) ≠ "Invalid Date" := by
  decide

/-- C9 (amended): the date transform with format "YYYY-MM-DD" maps
"2024-03-05T00:00:00Z" to "2024-03-05"; it substitutes the tokens YYYY,
MM, DD, HH, mm, ss (first occurrence each) from the date and never
throws; an invalid date falls back to the raw string representation
"Invalid Date" only under the "ISO" format, while token formats render
its components as "NaN". -/
theorem c9_transformDate_scenario :
    DataTransformer.transformDate (newDateJS (JSValue.str "2024-03-05T00:00:00Z"))
      { dateFormat := some "YYYY-MM-DD" } = "2024-03-05" ∧
    DataTransformer.transformDate (newDateJS (JSValue.str "2024-03-05T07:08:09Z"))
      { dateFormat := some "DD/MM/YYYY HH:mm:ss" } = "05/03/2024 07:08:09" ∧
    DataTransformer.transformDate (newDateJS (JSValue.str "not a date"))
      { dateFormat := some "ISO" } = "Invalid Date" ∧
    DataTransformer.transformDate (newDateJS (JSValue.str "not a date"))
      { dateFormat := some "YYYY-MM-DD" } = "NaN-NaN-NaN" := by
  decide

/-- C4: the claim requires a no-op warning in the result whenever
security/permission options are supplied.  The source's
`applyPDFOptions` contains no statement reading `options.security`, so a
successful generation with owner/user passwords set returns no warning
at all and a result identical to the one without security options: the
options are silently dropped, contradicting the claim (the spec states
they must be surfaced). -/
theorem c4_security_options_silently_ignored :
    (PDFGenerator.generatePDF {} requestWithSecurity).success = true ∧
    (PDFGenerator.generatePDF {} requestWithSecurity).warnings = none ∧
    PDFGenerator.generatePDF {} requestWithSecurity =
      PDFGenerator.generatePDF {} requestBase := by
  decide

/-- C2 counterexample: the claim says a validation failure records a
warning in the returned `ProcessingResult`.  For a field whose minimum
length 5 rejects the supplied value "ab", `processData` substitutes the
default value "DFLT", but the returned result of the whole generation
carries no warning at all — the failure is only written to the console
by the source. -/
theorem c2_validation_warning_counterexample :
    PDFGenerator.processData (fun _ => none)
      (JSValue.obj [("amount", JSValue.str "ab")]) [fieldAmount] =
      [("f1", JSValue.str "DFLT")] ∧
    (FieldValidator.validate (JSValue.str "ab")
      [FieldValidationRule.minLength 5 none]).isValid = false ∧
    (PDFGenerator.generatePDF { fields := [fieldAmount] } requestAmount).success = true ∧
    (PDFGenerator.generatePDF { fields := [fieldAmount] } requestAmount).warnings = none :=
  ⟨rfl, by decide, by decide, by decide⟩

/-- C5 counterexample: the claim asserts at least ⌈textWidth/width⌉
lines, each of measured width at most `dimensions.width`.  With the
per-character metric `String.length`, the single word "abcd" (width 4)
against maximum width 2 wraps to the single line "abcd": one line
instead of the required two, and its width 4 exceeds 2 — the source
pushes an over-wide single word unbroken ("add it anyway"). -/
theorem c5_wrap_counterexample :
    FieldProcessor.wrapText String.length "abcd" 2 = ["abcd"] ∧
    String.length "abcd" > 2 ∧
    ¬((FieldProcessor.wrapText String.length "abcd" 2).length ≥
        (String.length "abcd" + 2 - 1) / 2 ∧
      ∀ l ∈ FieldProcessor.wrapText String.length "abcd" 2, String.length l ≤ 2) := by
  decide

/-- C7 counterexample: the claim says the errors list contains one entry
for each failing rule and isValid is true exactly when that list is
empty.  A required rule configured with the empty message fails on
`null` (validateRule returns the empty-string error), yet the loop's JS
truthiness check `if (result.error)` drops it: the returned errors list
is empty and isValid is true although one rule failed. -/
theorem c7_empty_message_counterexample :
    FieldValidator.validateRule JSValue.null (.required (some "")) = some "" ∧
    (FieldValidator.validate JSValue.null [.required (some "")]).errors = [] ∧
    (FieldValidator.validate JSValue.null [.required (some "")]).isValid = true ∧
    ([FieldValidationRule.required (some "")].filter
      (fun r => (FieldValidator.validateRule JSValue.null r).isSome)).length = 1 := by
  refine ⟨rfl, rfl, rfl, rfl⟩

/-- Concatenating around a space never yields the empty string. -/
theorem append_space_ne_empty (a b : String) : a ++ " " ++ b ≠ "" := by
  intro h
  have hlen := congrArg String.length h
  simp [String.length_append] at hlen
  exact absurd hlen.1.2 (by decide)

/-- Invariant of the wrap loop: every emitted line either fits the
maximum width or is one of the words of `W` (an over-wide single word
pushed unbroken). -/
theorem wrapGo_sound (w : String → ℕ) (maxW : ℕ) (W : List String) :
    ∀ (words : List String) (cur : String), (∀ x ∈ words, x ∈ W) →
      (cur = "" ∨ w cur ≤ maxW ∨ cur ∈ W) →
      ∀ l ∈ FieldProcessor.wrapGo w maxW words cur, w l ≤ maxW ∨ l ∈ W := by
  intro words
  induction words with
  | nil =>
    intro cur _ hcur l hl
    by_cases h : cur = ""
    · simp [FieldProcessor.wrapGo, h] at hl
    · simp [FieldProcessor.wrapGo, h] at hl
      subst hl
      rcases hcur with h' | h' | h'
      · exact absurd h' h
      · exact Or.inl h'
      · exact Or.inr h'
  | cons word rest ih =>
    intro cur hwords hcur l hl
    have hwrest : ∀ x ∈ rest, x ∈ W := fun x hx => hwords x (List.mem_cons_of_mem _ hx)
    have hword : word ∈ W := hwords word (List.mem_cons_self _ _)
    simp only [FieldProcessor.wrapGo] at hl
    by_cases hacc : w (if cur = "" then word else cur ++ " " ++ word) ≤ maxW
    · rw [if_pos hacc] at hl
      exact ih _ hwrest (Or.inr (Or.inl hacc)) l hl
    · rw [if_neg hacc] at hl
      by_cases hc : cur = ""
      · rw [if_pos hc] at hl
        rcases List.mem_cons.mp hl with h | h
        · exact Or.inr (h ▸ hword)
        · exact ih _ hwrest (Or.inl rfl) l h
      · rw [if_neg hc] at hl
        rcases List.mem_cons.mp hl with h | h
        · subst h
          rcases hcur with h' | h' | h'
          · exact absurd h' hc
          · exact Or.inl h'
          · exact Or.inr h'
        · exact ih _ hwrest (Or.inr (Or.inr hword)) l h

/-- A non-empty pending line guarantees at least one emitted line. -/
theorem wrapGo_ne_nil_of_cur (w : String → ℕ) (maxW : ℕ) :
    ∀ (words : List String) (cur : String), cur ≠ "" →
      FieldProcessor.wrapGo w maxW words cur ≠ [] := by
  intro words
  induction words with
  | nil => intro cur hc; simp [FieldProcessor.wrapGo, hc]
  | cons word rest ih =>
    intro cur hc
    simp only [FieldProcessor.wrapGo]
    by_cases hacc : w (if cur = "" then word else cur ++ " " ++ word) ≤ maxW
    · rw [if_pos hacc]
      rw [if_neg hc]
      exact ih _ (append_space_ne_empty cur word)
    · rw [if_neg hacc, if_neg hc]
      simp

/-- A non-empty word somewhere in the input guarantees at least one
emitted line. -/
theorem wrapGo_ne_nil_of_word (w : String → ℕ) (maxW : ℕ) :
    ∀ (words : List String) (cur : String), (∃ x ∈ words, x ≠ "") →
      FieldProcessor.wrapGo w maxW words cur ≠ [] := by
  intro words
  induction words with
  | nil => rintro cur ⟨x, hx, _⟩; exact absurd hx (List.not_mem_nil x)
  | cons word rest ih =>
    rintro cur ⟨x, hx, hxne⟩
    simp only [FieldProcessor.wrapGo]
    by_cases hacc : w (if cur = "" then word else cur ++ " " ++ word) ≤ maxW
    · rw [if_pos hacc]
      by_cases ht : (if cur = "" then word else cur ++ " " ++ word) = ""
      · rcases List.mem_cons.mp hx with h | h
        · subst h
          exfalso
          by_cases hc : cur = ""
          · rw [if_pos hc] at ht; exact hxne ht
          · exact append_space_ne_empty cur x (by rwa [if_neg hc] at ht)
        · exact ih _ ⟨x, h, hxne⟩
      · exact wrapGo_ne_nil_of_cur w maxW rest _ ht
    · rw [if_neg hacc]
      by_cases hc : cur = ""
      · rw [if_pos hc]; simp
      · rw [if_neg hc]; simp

/-- C5 (amended): every line produced by the multiline word wrap either
has measured width at most `dimensions.width` or is a single word of the
input, pushed unbroken because it alone exceeds the width; and any text
containing a non-empty word produces at least one line.  The
⌈textWidth/width⌉ lower bound on the number of lines does not hold (see
the counterexample). -/
theorem c5_wrap_lines_sound (w : String → ℕ) (text : String) (maxWidth : ℕ) :
    (∀ l ∈ FieldProcessor.wrapText w text maxWidth,
      w l ≤ maxWidth ∨ l ∈ jsSplit text " ") ∧
    ((∃ x ∈ jsSplit text " ", x ≠ "") →
      FieldProcessor.wrapText w text maxWidth ≠ []) :=
  ⟨fun l hl =>
    wrapGo_sound w maxWidth (jsSplit text " ") (jsSplit text " ") ""
      (fun _ hx => hx) (Or.inl rfl) l hl,
   fun hex => wrapGo_ne_nil_of_word w maxWidth (jsSplit text " ") "" hex⟩

/-- C5 witness: for the text "aa bb" at maximum width 2 under the
per-character metric, the line "aa" satisfies the width bound and the
wrap is non-empty. -/
theorem c5_wrap_lines_sound_witness :
    (String.length "aa" ≤ 2 ∨ "aa" ∈ jsSplit "aa bb" " ") ∧
    FieldProcessor.wrapText String.length "aa bb" 2 ≠ [] :=
  ⟨(c5_wrap_lines_sound String.length "aa bb" 2).1 "aa" (by decide),
   (c5_wrap_lines_sound String.length "aa bb" 2).2 ⟨"aa", by decide, by decide⟩⟩

/-- The error-accumulating loop of `validate` is a `filterMap` keeping
the truthy (non-empty) error of each rule. -/
theorem validate_foldl_filterMap (value : JSValue) :
    ∀ (rules : List FieldValidationRule) (acc : List String),
      rules.foldl (fun acc rule =>
        match FieldValidator.validateRule value rule with
        | some e => if e ≠ "" then acc ++ [e] else acc
        | none => acc) acc =
      acc ++ rules.filterMap (fun r => (FieldValidator.validateRule value r).bind
        (fun e => if e ≠ "" then some e else none)) := by
  intro rules
  induction rules with
  | nil => intro acc; simp
  | cons r rs ih =>
    intro acc
    simp only [List.foldl, List.filterMap_cons]
    cases h : FieldValidator.validateRule value r with
    | none => simp only [h, Option.bind]; exact ih acc
    | some e =>
      by_cases he : e = ""
      · subst he
        simp only [h, Option.bind]
        rw [if_neg (by simp), if_neg (by simp)]
        exact ih acc
      · simp only [h, Option.bind]
        rw [if_pos (by simpa using he), if_pos (by simpa using he)]
        rw [ih (acc ++ [e])]
        simp only [List.append_assoc, List.singleton_append]
        rfl

/-- C7 (amended): `validate` evaluates every rule with no short-circuit
and aggregates, in order, the error of each failing rule whose message
is non-empty (a failing rule configured with an empty message is dropped
by the loop's JS truthiness check — see the counterexample); `isValid`
is true exactly when no rule fails with a non-empty message, and the
warnings list is always empty because no branch of `validateRule` ever
produces a warning. -/
theorem c7_validate_aggregates (value : JSValue) (rules : List FieldValidationRule) :
    (FieldValidator.validate value rules).errors =
      rules.filterMap (fun r => (FieldValidator.validateRule value r).bind
        (fun e => if e ≠ "" then some e else none)) ∧
    ((FieldValidator.validate value rules).isValid = true ↔
      ∀ r ∈ rules, ∀ e, FieldValidator.validateRule value r = some e → e = "") ∧
    (FieldValidator.validate value rules).warnings = [] := by
  have herr : (FieldValidator.validate value rules).errors =
      rules.filterMap (fun r => (FieldValidator.validateRule value r).bind
        (fun e => if e ≠ "" then some e else none)) := by
    show (rules.foldl (fun acc rule =>
        match FieldValidator.validateRule value rule with
        | some e => if e ≠ "" then acc ++ [e] else acc
        | none => acc) []) = _
    rw [validate_foldl_filterMap value rules []]
    exact List.nil_append _
  refine ⟨herr, ?_, rfl⟩
  rw [show (FieldValidator.validate value rules).isValid =
      decide ((FieldValidator.validate value rules).errors.length = 0) from rfl]
  rw [decide_eq_true_iff, List.length_eq_zero, herr, List.filterMap_eq_nil_iff]
  constructor
  · intro hg r hr e he
    have hnone := hg r hr
    rw [he] at hnone
    by_contra hne
    simp only [Option.bind, if_pos (by simpa using hne)] at hnone
    exact Option.some_ne_none e hnone
  · intro hall r hr
    cases h : FieldValidator.validateRule value r with
    | none => rfl
    | some e =>
      have he := hall r hr e h
      simp only [h, Option.bind, he]
      simp

/-- C7 witness: a required rule with the default message, failing on
`null`, is aggregated as the single error "Field is required". -/
theorem c7_validate_aggregates_witness :
    (FieldValidator.validate JSValue.null [FieldValidationRule.required none]).errors =
      ["Field is required"] := by
  have h := (c7_validate_aggregates JSValue.null [FieldValidationRule.required none]).1
  rw [h]
  rfl

/-- The success flag of a generation call is exactly the absence of a
fatal condition. -/
theorem generatePDF_success_eq (env : GenEnv) (request : PDFGenerationRequest) :
    (PDFGenerator.generatePDF env request).success = !(PDFGenerator.fatalB env request) := by
  unfold PDFGenerator.generatePDF PDFGenerator.fatalB
  by_cases hv : (PDFGenerator.validateRequest request).isValid
  · cases ht : env.template with
    | none => simp [hv, ht, PDFGenerator.failResult]
    | some t =>
      cases hb : env.baseBytes with
      | none => simp [hv, ht, hb, PDFGenerator.failResult]
      | some b =>
        by_cases hd : env.docLoadOk
        · by_cases hs : env.saveOk
          · simp [hv, ht, hb, hd, hs, PDFGenerator.failResult]
          · simp [hv, ht, hb, hd, hs, PDFGenerator.failResult]
        · simp [hv, ht, hb, hd, PDFGenerator.failResult]
  · simp [hv, PDFGenerator.failResult]

/-- `processData` is the per-field map: resolve, validate-or-default,
transform, keyed by field id. -/
theorem processData_eq_map (qr : String → Option String) (data : JSValue)
    (fields : List PDFFieldDefinition) :
    PDFGenerator.processData qr data fields = fields.map (fun field =>
      (field.id, PDFGenerator.typeTransform qr field
        (match field.validation with
         | some rules =>
           if (FieldValidator.validate (DataTransformer.getNestedValue data field.name)
                rules).isValid
           then DataTransformer.getNestedValue data field.name
           else field.defaultValue
         | none => DataTransformer.getNestedValue data field.name))) := by
  have h := foldl_append_map (fun field : PDFFieldDefinition =>
    (field.id, PDFGenerator.typeTransform qr field
      (match field.validation with
       | some rules =>
         if (FieldValidator.validate (DataTransformer.getNestedValue data field.name)
              rules).isValid
         then DataTransformer.getNestedValue data field.name
         else field.defaultValue
       | none => DataTransformer.getNestedValue data field.name))) fields []
  exact h.trans (List.nil_append _)

/-- C2 (amended): for every field whose declared validation rules
reject its resolved value, `processData` substitutes the field's default
value (then applies the per-type transformation) and continues with the
remaining fields — the output carries one entry per field, in order —
and an invalid field value never causes the generation call to abort:
success is exactly the absence of a fatal condition, which does not
depend on any field value.  No warning is recorded in the returned
result; the failure is only logged to the console (see the
counterexample). -/
theorem c2_validation_fallback (qr : String → Option String) (data : JSValue)
    (fields : List PDFFieldDefinition) :
    ((PDFGenerator.processData qr data fields).map Prod.fst = fields.map (·.id)) ∧
    (∀ f ∈ fields, ∀ rules, f.validation = some rules →
      (FieldValidator.validate (DataTransformer.getNestedValue data f.name) rules).isValid
        = false →
      (f.id, PDFGenerator.typeTransform qr f f.defaultValue) ∈
        PDFGenerator.processData qr data fields) ∧
    (∀ (env : GenEnv) (request : PDFGenerationRequest),
      (PDFGenerator.generatePDF env request).success = !(PDFGenerator.fatalB env request)) := by
  refine ⟨?_, ?_, fun env request => generatePDF_success_eq env request⟩
  · rw [processData_eq_map, List.map_map]
    rfl
  · intro f hf rules hval hinvalid
    rw [processData_eq_map]
    refine List.mem_map.mpr ⟨f, hf, ?_⟩
    simp only [hval, hinvalid]
    simp

/-- C2 witness: the field with minimum length 5, default "DFLT" and
supplied value "ab" contributes the entry (its id, transformed default)
to the processed data. -/
theorem c2_validation_fallback_witness :
    ("f1", PDFGenerator.typeTransform (fun _ => none) fieldAmount (JSValue.str "DFLT")) ∈
      PDFGenerator.processData (fun _ => none)
        (JSValue.obj [("amount", JSValue.str "ab")]) [fieldAmount] := by
  have h := (c2_validation_fallback (fun _ => none)
    (JSValue.obj [("amount", JSValue.str "ab")]) [fieldAmount]).2.1
  exact h fieldAmount (List.mem_singleton.mpr rfl)
    [FieldValidationRule.minLength 5 none] rfl (by decide)

/-- C3: `generatePDF` returns success=true exactly when no fatal
condition occurred (request validation failure, missing template, base
PDF fetch failure, malformed base document, serialization failure) —
per-field errors and warnings never flip the flag — and in the fatal
case the metadata block is the zero-valued `failMetadata` and no
document payload (buffer, base64 or URL) is returned. -/
theorem c3_success_only_fatal (env : GenEnv) (request : PDFGenerationRequest) :
    ((PDFGenerator.generatePDF env request).success = true ↔
      PDFGenerator.fatalB env request = false) ∧
    (PDFGenerator.fatalB env request = true →
      (PDFGenerator.generatePDF env request).metadata =
        PDFGenerator.failMetadata request env ∧
      (PDFGenerator.generatePDF env request).pdfBuffer = none ∧
      (PDFGenerator.generatePDF env request).pdfBase64 = none ∧
      (PDFGenerator.generatePDF env request).downloadUrl = none) := by
  constructor
  · rw [generatePDF_success_eq]
    cases PDFGenerator.fatalB env request <;> simp
  · intro hfatal
    unfold PDFGenerator.generatePDF
    unfold PDFGenerator.fatalB at hfatal
    by_cases hv : (PDFGenerator.validateRequest request).isValid
    · cases ht : env.template with
      | none => simp [hv, ht, PDFGenerator.failResult]
      | some t =>
        cases hb : env.baseBytes with
        | none => simp [hv, ht, hb, PDFGenerator.failResult]
        | some b =>
          by_cases hd : env.docLoadOk
          · by_cases hs : env.saveOk
            · exfalso
              rw [ht, hb] at hfatal
              simp [hv, hd, hs] at hfatal
            · simp [hv, ht, hb, hd, hs, PDFGenerator.failResult]
          · simp [hv, ht, hb, hd, PDFGenerator.failResult]
    · simp [hv, PDFGenerator.failResult]

/-- C3 witness: with a missing template the fatal branch is taken and
the metadata is the zero-valued block. -/
theorem c3_success_only_fatal_witness :
    (PDFGenerator.generatePDF { template := none } requestBase).metadata =
      PDFGenerator.failMetadata requestBase { template := none } ∧
    (PDFGenerator.generatePDF { template := none } requestBase).pdfBuffer = none := by
  have h := (c3_success_only_fatal { template := none } requestBase).2 (by decide)
  exact ⟨h.1, h.2.1⟩

/-- C10: in every success=true result, fieldsProcessed + fieldsSkipped
equals the number of field definitions fetched for the template, and
fieldsSkipped equals the number of recorded errors carrying a (truthy)
field id. -/
theorem c10_field_accounting (env : GenEnv) (request : PDFGenerationRequest)
    (h : (PDFGenerator.generatePDF env request).success = true) :
    (PDFGenerator.generatePDF env request).metadata.fieldsProcessed +
      (PDFGenerator.generatePDF env request).metadata.fieldsSkipped =
      (env.fields.length : ℤ) ∧
    (PDFGenerator.generatePDF env request).metadata.fieldsSkipped =
      ((((PDFGenerator.generatePDF env request).errors.getD []).filter
        PDFGenerator.errFieldTruthy).length : ℤ) := by
  have hfatal : PDFGenerator.fatalB env request = false := by
    rw [generatePDF_success_eq] at h
    cases hf : PDFGenerator.fatalB env request
    · rfl
    · rw [hf] at h; simp at h
  unfold PDFGenerator.fatalB at hfatal
  unfold PDFGenerator.generatePDF
  by_cases hv : (PDFGenerator.validateRequest request).isValid
  · cases ht : env.template with
    | none => exfalso; rw [ht] at hfatal; simp [hv] at hfatal
    | some t =>
      cases hb : env.baseBytes with
      | none => exfalso; rw [ht, hb] at hfatal; simp [hv] at hfatal
      | some b =>
        by_cases hd : env.docLoadOk
        · by_cases hs : env.saveOk
          · simp only [hv, ht, hb, hd, hs, not_true_eq_false, ite_false, if_false]
            constructor
            · omega
            · by_cases hfe : ((PDFGenerator.fillPDFFields env env.fields).1).length > 0
              · simp [hfe]
              · have hnil : (PDFGenerator.fillPDFFields env env.fields).1 = [] :=
                  List.length_eq_zero.mp (by omega)
                simp [hfe, hnil]
          · exfalso; rw [ht, hb] at hfatal; simp [hv, hd, hs] at hfatal
        · exfalso; rw [ht, hb] at hfatal; simp [hv, hd] at hfatal
  · exfalso; simp [hv] at hfatal

/-- C10 witness: one field whose drawing throws yields one skipped
field, and the processed/skipped counters sum to the single fetched
field definition. -/
theorem c10_field_accounting_witness :
    (PDFGenerator.generatePDF envRenderFail requestBase).metadata.fieldsProcessed +
      (PDFGenerator.generatePDF envRenderFail requestBase).metadata.fieldsSkipped =
      (envRenderFail.fields.length : ℤ) :=
  (c10_field_accounting envRenderFail requestBase (by decide)).1
